import Mathlib

/-!
Verification of the playback-continuation core of the turto bot.

The embedding translates `src/commands/queue.rs` (the `queue` command) and
`src/handlers/track_end.rs` (`TrackEndHandler::act`) into pure Lean
functions.  Shared per-guild state (the Playlist Registry keyed by guild id
and the Guild Config Store) is modelled as association lists passed
explicitly; awaits, lock acquisitions and backend commands are recorded in
an explicit event trace so that the locking discipline and the ordering of
user-visible effects can be stated.
-/

set_option autoImplicit false

namespace Turto

/-- Guild identifier (`serenity::model::prelude::GuildId`). -/
abbrev GuildId := Nat

/-- Modelled from the spec: `Metadata` lives in `guild/playlist.rs`, which is
not among the provided sources.  Per the data model section it is an
immutable value `{title: optional text, duration: optional duration,
url: text, requester: user identifier}`; `queue.rs` reads its `title`
field (an `Option`). -/
structure Metadata where
  title : Option String
  duration : Option Nat
  url : String
  requester : Nat
deriving DecidableEq, Repr

/-- Modelled from the spec: `Playlist` lives in `guild/playlist.rs`, which is
not among the provided sources.  Per the spec it is an ordered sequence of
`Metadata` with FIFO semantics: `push_back` appends, `pop_front` removes
the head. -/
structure Playlist where
  items : List Metadata
deriving DecidableEq, Repr

/-- `Playlist::new` — a fresh empty playlist. -/
def Playlist.new : Playlist := ⟨[]⟩

/-- `push_back(item)`: append at the back; always succeeds. -/
def Playlist.push_back (p : Playlist) (x : Metadata) : Playlist :=
  ⟨p.items ++ [x]⟩

/-- `pop_front() -> optional item`: remove and return the head, the empty
sentinel (`none`) on an empty playlist. -/
def Playlist.pop_front (p : Playlist) : Option Metadata × Playlist :=
  match p.items with
  | [] => (none, p)
  | x :: xs => (some x, ⟨xs⟩)

/-- `is_empty()`: no side effects. -/
def Playlist.is_empty (p : Playlist) : Bool :=
  p.items.isEmpty

/-- Modelled from the spec: `GuildConfig` lives in `typemap/config.rs`,
which is not among the provided sources; `track_end.rs` reads its
`auto_leave` boolean, created by `entry(..).or_default()`.  The default
value is implementation-chosen but fixed; a Rust `#[derive(Default)]`
boolean defaults to `false`. -/
structure GuildConfig where
  auto_leave : Bool
deriving DecidableEq, Repr

/-- The fixed default used by `or_default()`. -/
def GuildConfig.default : GuildConfig := ⟨false⟩

/-- Association-list lookup, the functional reading of `HashMap::get`. -/
def lookupA {α : Type} : List (GuildId × α) → GuildId → Option α
  | [], _ => none
  | (k, v) :: rest, g => if k = g then some v else lookupA rest g

/-- `map.entry(g).or_insert_with(/ or_default)`: find-or-create.  Returns
the entry's current value together with the (possibly extended) map. -/
def entryOr {α : Type} (m : List (GuildId × α)) (g : GuildId) (d : α) :
    α × List (GuildId × α) :=
  match lookupA m g with
  | some v => (v, m)
  | none => (d, m ++ [(g, d)])

/-- Write back a new value for an existing key, the functional reading of
mutating the entry handed out by `entry(..)` in place. -/
def setEntry {α : Type} : List (GuildId × α) → GuildId → α → List (GuildId × α)
  | [], _, _ => []
  | (k, w) :: rest, g, v =>
    if k = g then (k, v) :: rest else (k, w) :: setEntry rest g v

/-- Number of entries stored under a key (the registry invariant wants
this to be at most one). -/
def countKey {α : Type} (m : List (GuildId × α)) (g : GuildId) : Nat :=
  (m.filter (fun p => p.1 == g)).length

/-- The items of guild `g`'s playlist, reading an absent playlist as the
empty one (the spec: an exhausted playlist stays keyed, and absence is
observationally the empty state). -/
def itemsOf (pls : List (GuildId × Playlist)) (g : GuildId) : List Metadata :=
  match lookupA pls g with
  | some p => p.items
  | none => []

/-- The Guild Config Store: guild id to `GuildConfig`. -/
abbrev GuildConfigs := List (GuildId × GuildConfig)

/-- The Playlist Registry: guild id to `Playlist`. -/
abbrev Playlists := List (GuildId × Playlist)

/-- Modelled from the spec: `PlayError` is declared in `utils/play.rs`,
which is not among the provided sources.  `track_end.rs` matches on its
`EmptyPlaylist(guild)` variant; the spec says any other failure to start
playback is a distinct error kind, collapsed here into `OtherError`. -/
inductive PlayError
  | EmptyPlaylist (guild : GuildId)
  | OtherError (msg : String)
deriving DecidableEq, Repr

/-- Observable events emitted by the embedded operations, in program
order: network/backend awaits, registry-lock acquire/release, and the
data-structure and backend effects the claims talk about. -/
inductive Ev
  | resolveAwait
  | replyAwait
  | pushItem
  | acquire
  | release
  | advanceAwait
  | getManagerAwait
  | disconnectAwait
  | startCmd
  | logErr
deriving DecidableEq, Repr

/-- Awaits of the voice backend or a network collaborator (URL resolution,
the Discord reply, `play_next`, `manager.remove`).  Reading the typemap
(`songbird::get`) is a local lookup, not a network await. -/
def Ev.isNetAwait : Ev → Bool
  | .resolveAwait => true
  | .replyAwait => true
  | .advanceAwait => true
  | .disconnectAwait => true
  | _ => false

/-- Scan a trace tracking registry-lock depth; `true` iff some network or
backend await happens while a lock is held. -/
def heldAux : Nat → List Ev → Bool
  | _, [] => false
  | d, e :: rest =>
    match e with
    | .acquire => heldAux (d + 1) rest
    | .release => heldAux (d - 1) rest
    | _ => (e.isNetAwait && d != 0) || heldAux d rest

/-- A registry or config-store lock is held across a suspension point that
awaits the backend or a network collaborator. -/
def lockHeldAcrossAwait (tr : List Ev) : Bool :=
  heldAux 0 tr

/-- Output of one run of `TrackEndHandler::act`: the config store after
the run, the disconnect commands issued to the backend, the log lines
written, the event trace, and whether the handler ran to completion
(returned `None` to the backend without crashing). -/
structure ActOut where
  configs : GuildConfigs
  disconnects : List GuildId
  logs : List String
  trace : List Ev
  completed : Bool
deriving DecidableEq, Repr

/-- `TrackEndHandler::act` from `src/handlers/track_end.rs`, parameterized
by the result of the `play_next` await and, where the disconnect is
reached, by the backend's response to `manager.remove`.

Source shape: `if let Err(PlayError::EmptyPlaylist(_)) = play_next(..)`
then read `auto_leave` via `guild_configs.entry(guild_id).or_default()`
inside the config lock's scope, release the lock, and if `auto_leave`
call `manager.remove(guild_id)`, logging (`error!`) a failure; every
other `play_next` outcome falls through and the handler returns `None`. -/
def trackEndAct (res : Except PlayError Unit) (dres : Except String Unit)
    (cfgs : GuildConfigs) (g : GuildId) : ActOut :=
  match res with
  | .error (.EmptyPlaylist _) =>
    let r := entryOr cfgs g GuildConfig.default
    if r.1.auto_leave then
      match dres with
      | .ok _ =>
        ⟨r.2, [g], [],
          [.advanceAwait, .acquire, .release, .getManagerAwait, .disconnectAwait],
          true⟩
      | .error e =>
        ⟨r.2, [g], ["Error leave voice channel: " ++ e],
          [.advanceAwait, .acquire, .release, .getManagerAwait, .disconnectAwait,
           .logErr],
          true⟩
    else
      ⟨r.2, [], [], [.advanceAwait, .acquire, .release], true⟩
  | .ok _ => ⟨cfgs, [], [], [.advanceAwait], true⟩
  | .error (.OtherError _) => ⟨cfgs, [], [], [.advanceAwait], true⟩

/-- Outcome of the `queue` command as seen at its public interface:
normal `CommandResult::Ok`, an error propagated by `?`, or a process
abort from `Option::unwrap` on `None`. -/
inductive QueueOutcome
  | ok
  | err (e : String)
  | panicked (msg : String)
deriving DecidableEq, Repr

/-- The `queue` command from `src/commands/queue.rs`, parameterized by the
result of the `songbird::input::ytdl(&url)` resolution await and by the
outcome of the `msg.reply(..)` network await.

Source order: resolve the URL (`?` propagates a failure before any
registry access); clone the `Playlists` handle out of the typemap; lock
the registry mutex; `entry(guild_id).or_insert_with(Playlist::new)`;
reply to the user with `metadata.title.clone().unwrap()` — still inside
the mutex scope, aborting if `title` is `None`, propagating a reply error
with `?`; only then `push_back` the item; the mutex guard drops at the
scope's end. -/
def queueCmd (res : Except String Metadata) (replyRes : Except String Unit)
    (pls : Playlists) (g : GuildId) :
    QueueOutcome × Playlists × List Ev :=
  match res with
  | .error e => (.err e, pls, [.resolveAwait])
  | .ok md =>
    let r := entryOr pls g Playlist.new
    match md.title with
    | none =>
      (.panicked "called Option::unwrap() on a None value", r.2,
        [.resolveAwait, .acquire])
    | some _ =>
      match replyRes with
      | .error e =>
        (.err e, r.2, [.resolveAwait, .acquire, .replyAwait, .release])
      | .ok _ =>
        (.ok, setEntry r.2 g (r.1.push_back md),
          [.resolveAwait, .acquire, .replyAwait, .pushItem, .release])

/-- Push a whole sequence onto a playlist, in order. -/
def pushAll (p : Playlist) (xs : List Metadata) : Playlist :=
  xs.foldl Playlist.push_back p

/-- Pop at most `n` items off the front, collecting them until the empty
sentinel appears. -/
def drainAux : Nat → Playlist → List Metadata
  | 0, _ => []
  | n + 1, p =>
    match p.pop_front with
    | (none, _) => []
    | (some x, p') => x :: drainAux n p'

/-- Repeatedly pop the front until the playlist reports empty. -/
def drain (p : Playlist) : List Metadata :=
  drainAux p.items.length p

theorem pushAll_items (xs : List Metadata) :
    ∀ p : Playlist, (pushAll p xs).items = p.items ++ xs := by
  induction xs with
  | nil => intro p; simp [pushAll]
  | cons x xs ih =>
    intro p
    have h := ih (p.push_back x)
    simp only [pushAll, List.foldl] at h ⊢
    rw [h]
    simp [Playlist.push_back]

theorem drainAux_items (l : List Metadata) :
    drainAux l.length ⟨l⟩ = l := by
  induction l with
  | nil => rfl
  | cons x xs ih =>
    simp only [List.length, drainAux, Playlist.pop_front]
    exact congrArg (x :: ·) ih

theorem lookupA_append {α : Type} (m m2 : List (GuildId × α)) (k : GuildId) :
    lookupA (m ++ m2) k =
      match lookupA m k with
      | some v => some v
      | none => lookupA m2 k := by
  induction m with
  | nil => rfl
  | cons p rest ih =>
    by_cases h : p.1 = k
    · simp [lookupA, h]
    · simp [lookupA, h, ih]

theorem lookupA_append_of_none {α : Type} {m : List (GuildId × α)}
    {k : GuildId} (h : lookupA m k = none) (v : α) :
    lookupA (m ++ [(k, v)]) k = some v := by
  rw [lookupA_append, h]
  simp [lookupA]

theorem countKey_of_lookup_none {α : Type} {m : List (GuildId × α)}
    {k : GuildId} (h : lookupA m k = none) : countKey m k = 0 := by
  induction m with
  | nil => rfl
  | cons p rest ih =>
    by_cases hk : p.1 = k
    · simp [lookupA, hk] at h
    · cases p with
      | mk k1 v1 =>
        simp only at hk
        simp only [lookupA, if_neg hk] at h
        have h2 := ih h
        have hb : ((k1, v1).1 == k) = false := by simpa using hk
        unfold countKey at h2 ⊢
        simp [List.filter_cons, hb, h2]

theorem countKey_append {α : Type} (m : List (GuildId × α)) (k : GuildId)
    (v : α) : countKey (m ++ [(k, v)]) k = countKey m k + 1 := by
  simp [countKey, List.filter_append]

theorem lookupA_setEntry_self {α : Type} {m : List (GuildId × α)}
    {k : GuildId} {w : α} (h : lookupA m k = some w) (v : α) :
    lookupA (setEntry m k v) k = some v := by
  induction m with
  | nil => simp [lookupA] at h
  | cons p rest ih =>
    by_cases hk : p.1 = k
    · cases p with
      | mk k1 v1 => simp_all [lookupA, setEntry]
    · cases p with
      | mk k1 v1 =>
        simp only at hk
        simp only [lookupA, if_neg hk] at h
        simp [setEntry, if_neg hk, lookupA, ih h]

theorem lookupA_setEntry_other {α : Type} (m : List (GuildId × α))
    (k k2 : GuildId) (v : α) (h : k2 ≠ k) :
    lookupA (setEntry m k v) k2 = lookupA m k2 := by
  induction m with
  | nil => rfl
  | cons p rest ih =>
    cases p with
    | mk k1 v1 =>
      by_cases hk : k1 = k
      · subst hk
        have hcond : ¬ k1 = k2 := fun hh => h hh.symm
        simp [setEntry, lookupA, hcond]
      · simp [setEntry, if_neg hk, lookupA, ih]

theorem entryOr_fst {α : Type} (m : List (GuildId × α)) (k : GuildId)
    (d : α) :
    (entryOr m k d).1 = match lookupA m k with | some v => v | none => d := by
  unfold entryOr
  cases lookupA m k <;> rfl

theorem lookupA_entryOr {α : Type} (m : List (GuildId × α)) (k : GuildId)
    (d : α) : lookupA (entryOr m k d).2 k = some (entryOr m k d).1 := by
  unfold entryOr
  cases h : lookupA m k with
  | some v => simpa using h
  | none => simpa using lookupA_append_of_none h d

theorem lookupA_entryOr_other {α : Type} (m : List (GuildId × α))
    (k k2 : GuildId) (d : α) (h : k2 ≠ k) :
    lookupA (entryOr m k d).2 k2 = lookupA m k2 := by
  unfold entryOr
  cases hm : lookupA m k with
  | some v => rfl
  | none =>
    simp only
    rw [lookupA_append]
    cases h2 : lookupA m k2 with
    | some v => rfl
    | none =>
      have hcond : ¬ k = k2 := fun hh => h hh.symm
      simp [lookupA, hcond]

theorem itemsOf_entryOr_new (pls : Playlists) (g g2 : GuildId) :
    itemsOf (entryOr pls g Playlist.new).2 g2 = itemsOf pls g2 := by
  by_cases h : g2 = g
  · subst h
    rw [itemsOf, lookupA_entryOr, entryOr_fst, itemsOf]
    cases lookupA pls g2 with
    | some p => rfl
    | none => rfl
  · rw [itemsOf, lookupA_entryOr_other pls g g2 Playlist.new h, itemsOf]

theorem entryOr_fst_items (pls : Playlists) (g : GuildId) :
    (entryOr pls g Playlist.new).1.items = itemsOf pls g := by
  rw [entryOr_fst, itemsOf]
  cases lookupA pls g with
  | some p => rfl
  | none => rfl

/-- A concrete resolved item with a title, for witnesses. -/
def mdA : Metadata := ⟨some "A", some 100, "https://example.com/a", 1⟩

/-- A concrete resolved item whose metadata has no title. -/
def mdNoTitle : Metadata := ⟨none, some 100, "https://example.com/b", 1⟩

/-- C1: on a track-end event where advance returns EmptyPlaylist, the
handler reads the guild entry of the Guild Config Store (creating it with
defaults when absent) and commands exactly one backend disconnect for the
guild precisely when its auto_leave setting is true; when it is false no
disconnect is commanded. -/
theorem trackEnd_disconnect_iff_autoLeave (ge : GuildId)
    (dres : Except String Unit) (cfgs : GuildConfigs) (g : GuildId) :
    ((trackEndAct (.error (.EmptyPlaylist ge)) dres cfgs g).disconnects =
      if (entryOr cfgs g GuildConfig.default).1.auto_leave then [g] else [])
    ∧ (trackEndAct (.error (.EmptyPlaylist ge)) dres cfgs g).configs =
        (entryOr cfgs g GuildConfig.default).2 := by
  cases dres with
  | ok u =>
    cases hb : (entryOr cfgs g GuildConfig.default).1.auto_leave <;>
      simp [trackEndAct, hb]
  | error e =>
    cases hb : (entryOr cfgs g GuildConfig.default).1.auto_leave <;>
      simp [trackEndAct, hb]

/-- C3 counterexample: on a track-end event where advance returns an error
other than EmptyPlaylist, the handler writes no log line at all — refuting
the claim that it logs that error.  Guild 5, empty config store, advance
fails with an error that is not EmptyPlaylist. -/
theorem trackEnd_otherError_no_log_cex :
    (trackEndAct (.error (.OtherError "ytdl failed")) (.ok ()) [] 5).logs
      = [] := rfl

/-- C3 amended: on a track-end event where advance returns an error other
than EmptyPlaylist, the handler silently ignores it: no log line, no
disconnect, the config store untouched, and the handler completes without
crashing. -/
theorem trackEnd_otherError_silent (s : String) (dres : Except String Unit)
    (cfgs : GuildConfigs) (g : GuildId) :
    trackEndAct (.error (.OtherError s)) dres cfgs g =
      ⟨cfgs, [], [], [.advanceAwait], true⟩ := rfl

/-- C4: pushing any sequence onto a fresh playlist and then popping
repeatedly yields exactly the pushed items in push order, and popping the
fresh (empty) playlist returns the empty sentinel. -/
theorem playlist_fifo (xs : List Metadata) :
    drain (pushAll Playlist.new xs) = xs
    ∧ Playlist.pop_front Playlist.new = (none, Playlist.new) := by
  constructor
  · have hitems : (pushAll Playlist.new xs).items = xs := by
      simpa [Playlist.new] using pushAll_items xs Playlist.new
    have hp : pushAll Playlist.new xs = ⟨xs⟩ := by
      cases hq : pushAll Playlist.new xs
      rw [hq] at hitems
      simpa using hitems
    rw [drain, hp]
    exact drainAux_items xs
  · rfl

/-- C6: when the playlist is exhausted, auto_leave is true and the backend
disconnect fails, the handler issues the disconnect once, logs the failure
and nothing else, and still completes normally — the failure is neither
retried nor escalated (the whole output is this one literal). -/
theorem trackEnd_disconnect_failure_logged_only (cfgs : GuildConfigs)
    (g : GuildId) (e : String)
    (h : (entryOr cfgs g GuildConfig.default).1.auto_leave = true) :
    trackEndAct (.error (.EmptyPlaylist g)) (.error e) cfgs g =
      ⟨(entryOr cfgs g GuildConfig.default).2, [g],
        ["Error leave voice channel: " ++ e],
        [.advanceAwait, .acquire, .release, .getManagerAwait,
         .disconnectAwait, .logErr],
        true⟩ := by
  simp [trackEndAct, h]

/-- C6 witness: concrete run with one guild whose auto_leave is true and a
failing disconnect. -/
theorem trackEnd_disconnect_failure_logged_only_w :
    (entryOr [(0, GuildConfig.mk true)] 0 GuildConfig.default).1.auto_leave
      = true
    ∧ trackEndAct (.error (.EmptyPlaylist 0)) (.error "gone")
        [(0, GuildConfig.mk true)] 0 =
      ⟨(entryOr [(0, GuildConfig.mk true)] 0 GuildConfig.default).2, [0],
        ["Error leave voice channel: " ++ "gone"],
        [.advanceAwait, .acquire, .release, .getManagerAwait,
         .disconnectAwait, .logErr],
        true⟩ :=
  ⟨by decide,
   trackEnd_disconnect_failure_logged_only [(0, GuildConfig.mk true)] 0
     "gone" (by decide)⟩

/-- C7: a first access for a guild with no entry creates exactly one entry
holding the fixed default, and a second access returns that same entry and
leaves the store unchanged (idempotent find-or-create). -/
theorem configStore_find_or_create (m : GuildConfigs) (g : GuildId)
    (h : lookupA m g = none) :
    (entryOr m g GuildConfig.default).1 = GuildConfig.default
    ∧ lookupA (entryOr m g GuildConfig.default).2 g =
        some GuildConfig.default
    ∧ countKey (entryOr m g GuildConfig.default).2 g = 1
    ∧ entryOr (entryOr m g GuildConfig.default).2 g GuildConfig.default =
        (GuildConfig.default, (entryOr m g GuildConfig.default).2) := by
  have h1 : entryOr m g GuildConfig.default =
      (GuildConfig.default, m ++ [(g, GuildConfig.default)]) := by
    unfold entryOr
    rw [h]
  rw [h1]
  refine ⟨rfl, ?_, ?_, ?_⟩
  · exact lookupA_append_of_none h _
  · rw [countKey_append, countKey_of_lookup_none h]
  · unfold entryOr
    rw [lookupA_append_of_none h _]

/-- C7 witness: concrete first and second access for guild 0 on the empty
store. -/
theorem configStore_find_or_create_w :
    lookupA ([] : GuildConfigs) 0 = none
    ∧ ((entryOr ([] : GuildConfigs) 0 GuildConfig.default).1 =
        GuildConfig.default
      ∧ lookupA (entryOr ([] : GuildConfigs) 0 GuildConfig.default).2 0 =
          some GuildConfig.default
      ∧ countKey (entryOr ([] : GuildConfigs) 0 GuildConfig.default).2 0 = 1
      ∧ entryOr (entryOr ([] : GuildConfigs) 0 GuildConfig.default).2 0
            GuildConfig.default =
          (GuildConfig.default,
            (entryOr ([] : GuildConfigs) 0 GuildConfig.default).2)) :=
  ⟨rfl, configStore_find_or_create [] 0 rfl⟩

/-- C8: when URL resolution fails, the queue command surfaces exactly that
error as its result, never touches the Playlist Registry (returned
unchanged), and its trace holds the single resolution await — no retry, no
push. -/
theorem queue_resolution_failure (e : String)
    (replyRes : Except String Unit) (pls : Playlists) (g : GuildId) :
    queueCmd (.error e) replyRes pls g = (.err e, pls, [.resolveAwait]) :=
  rfl

/-- C2 counterexample: enqueueing item mdA on an idle guild (empty
registry, nothing playing) does push the item, but the queue command
issues no backend start command at all — refuting the claim that the
Continuation Engine is invoked so that start is called with the newly
pushed item.  The source of `queue` contains no call that could emit a
start. -/
theorem queue_no_start_cex :
    itemsOf (queueCmd (.ok mdA) (.ok ()) [] 0).2.1 0 = [mdA]
    ∧ Ev.startCmd ∉ (queueCmd (.ok mdA) (.ok ()) [] 0).2.2 := by
  decide

/-- C2 amended: every successful enqueue finds or creates the guild
playlist and appends the resolved item at its back, but the queue command
itself never invokes playback start — even when the guild is idle,
starting playback is left to other commands. -/
theorem queue_push_back_no_start (md : Metadata) (t : String)
    (pls : Playlists) (g : GuildId) (h : md.title = some t) :
    itemsOf (queueCmd (.ok md) (.ok ()) pls g).2.1 g = itemsOf pls g ++ [md]
    ∧ Ev.startCmd ∉ (queueCmd (.ok md) (.ok ()) pls g).2.2 := by
  constructor
  · simp only [queueCmd, h]
    rw [itemsOf,
      lookupA_setEntry_self (lookupA_entryOr pls g Playlist.new) _]
    simp [Playlist.push_back, entryOr_fst_items]
  · simp [queueCmd, h]

/-- C2 amended witness: concrete enqueue of mdA on the empty registry. -/
theorem queue_push_back_no_start_w :
    itemsOf (queueCmd (.ok mdA) (.ok ()) [(3, Playlist.new)] 3).2.1 3 =
      itemsOf [(3, Playlist.new)] 3 ++ [mdA]
    ∧ Ev.startCmd ∉ (queueCmd (.ok mdA) (.ok ()) [(3, Playlist.new)] 3).2.2 :=
  queue_push_back_no_start mdA "A" [(3, Playlist.new)] 3 rfl

/-- C5 counterexample: in the queue command the playlist-registry lock is
held across the network await that sends the user the acknowledgement
reply — refuting the claim that no lock is ever held across a suspension
point awaiting a network collaborator. -/
theorem queue_lock_across_reply_cex :
    lockHeldAcrossAwait (queueCmd (.ok mdA) (.ok ()) [] 0).2.2 = true := by
  decide

/-- C5 amended: the track-end handler obeys the discipline — the config
lock is held only for the pure config read and released before the backend
disconnect — but the queue command holds the playlist-registry lock across
the user-reply network await. -/
theorem lock_discipline (res : Except PlayError Unit)
    (dres : Except String Unit) (cfgs : GuildConfigs) (g : GuildId)
    (md : Metadata) (t : String) (replyRes : Except String Unit)
    (pls : Playlists) (g2 : GuildId) (h : md.title = some t) :
    lockHeldAcrossAwait (trackEndAct res dres cfgs g).trace = false
    ∧ lockHeldAcrossAwait (queueCmd (.ok md) replyRes pls g2).2.2 = true := by
  constructor
  · cases res with
    | ok u => rfl
    | error pe =>
      cases pe with
      | OtherError s => rfl
      | EmptyPlaylist ge =>
        cases dres with
        | ok u =>
          cases hb : (entryOr cfgs g GuildConfig.default).1.auto_leave <;>
            simp [trackEndAct, hb, lockHeldAcrossAwait, heldAux, Ev.isNetAwait]
        | error e =>
          cases hb : (entryOr cfgs g GuildConfig.default).1.auto_leave <;>
            simp [trackEndAct, hb, lockHeldAcrossAwait, heldAux, Ev.isNetAwait]
  · cases replyRes with
    | ok u => simp [queueCmd, h, lockHeldAcrossAwait, heldAux, Ev.isNetAwait]
    | error e => simp [queueCmd, h, lockHeldAcrossAwait, heldAux, Ev.isNetAwait]

/-- C5 amended witness: concrete handler run (empty playlist, default
config) and concrete successful enqueue of mdA. -/
theorem lock_discipline_w :
    lockHeldAcrossAwait
        (trackEndAct (.error (.EmptyPlaylist 0)) (.ok ()) [] 0).trace = false
    ∧ lockHeldAcrossAwait (queueCmd (.ok mdA) (.ok ()) [] 0).2.2 = true :=
  lock_discipline (.error (.EmptyPlaylist 0)) (.ok ()) [] 0 mdA "A"
    (.ok ()) [] 0 rfl

/-- C9: when resolution succeeds but the metadata carries no title, the
queue command aborts via unwrap-on-None instead of returning an error. -/
theorem queue_none_title_panics (md : Metadata)
    (replyRes : Except String Unit) (pls : Playlists) (g : GuildId)
    (h : md.title = none) :
    (queueCmd (.ok md) replyRes pls g).1 =
      .panicked "called Option::unwrap() on a None value" := by
  simp [queueCmd, h]

/-- C9 witness: concrete enqueue of an item without a title. -/
theorem queue_none_title_panics_w :
    (queueCmd (.ok mdNoTitle) (.ok ()) [] 0).1 =
      .panicked "called Option::unwrap() on a None value" :=
  queue_none_title_panics mdNoTitle (.ok ()) [] 0 rfl

/-- C10: the successful-enqueue trace shows the acknowledgement reply
awaited strictly before the push; consequently, when the reply fails the
command returns that error and the items of every playlist in the
registry are exactly as before — the resolved item is never enqueued. -/
theorem queue_reply_before_push (md : Metadata) (t : String)
    (pls : Playlists) (g : GuildId) (e : String) (h : md.title = some t) :
    ((queueCmd (.ok md) (.ok ()) pls g).2.2 =
      [.resolveAwait, .acquire, .replyAwait, .pushItem, .release])
    ∧ (queueCmd (.ok md) (.error e) pls g).1 = .err e
    ∧ ∀ g2, itemsOf (queueCmd (.ok md) (.error e) pls g).2.1 g2 =
        itemsOf pls g2 := by
  refine ⟨?_, ?_, ?_⟩
  · simp [queueCmd, h]
  · simp [queueCmd, h]
  · intro g2
    simp only [queueCmd, h]
    exact itemsOf_entryOr_new pls g g2

/-- C10 witness: concrete enqueue of mdA whose reply fails, on a registry
holding one non-empty playlist. -/
theorem queue_reply_before_push_w :
    ((queueCmd (.ok mdA) (.ok ()) [(7, Playlist.mk [mdNoTitle])] 7).2.2 =
      [.resolveAwait, .acquire, .replyAwait, .pushItem, .release])
    ∧ (queueCmd (.ok mdA) (.error "http 500")
        [(7, Playlist.mk [mdNoTitle])] 7).1 = .err "http 500"
    ∧ ∀ g2, itemsOf (queueCmd (.ok mdA) (.error "http 500")
          [(7, Playlist.mk [mdNoTitle])] 7).2.1 g2 =
        itemsOf [(7, Playlist.mk [mdNoTitle])] g2 :=
  queue_reply_before_push mdA "A" [(7, Playlist.mk [mdNoTitle])] 7
    "http 500" rfl

end Turto
